import Mathlib

/-!
A shallow embedding of the page script `script.js`: its functions and event
handlers as pure Lean functions over an explicit page state.

* JavaScript strings are sequences of UTF-16 code units (`JSString`).
* JavaScript numbers and the Unicode case mappings belong to the host; they are
  taken as a parameter (`Host`), so every statement holds for whatever the host
  computes for `+`, `-`, `*`, `/`, `toUpperCase` and `toLowerCase`.
* The element objects of the page are kept in a list; the position of an
  element is its identity and never changes. An element carries its id, class
  list, child nodes (text nodes and elements), the two inline style properties
  the script writes and its registered `transitionend` listeners. The element
  at position 0 is the root of the document; the document is what is reachable
  from it through the child nodes, so an element whose parent loses it as a
  child leaves the document and keeps its position and state.
* Each event handler of the script is a function `Page → Page`.
-/

namespace Script

/-! ## Strings -/

/-- A JavaScript string: a finite sequence of UTF-16 code units. -/
abbrev JSString := List Nat

/-- UTF-16 code units of one Unicode scalar value. -/
def utf16 (c : Char) : List Nat :=
  if c.toNat < 65536 then [c.toNat]
  else [55296 + (c.toNat - 65536) / 1024, 56320 + (c.toNat - 65536) % 1024]

/-- The JavaScript string denoted by a string literal of the source. -/
def js (s : String) : JSString :=
  s.toList.flatMap utf16

/-! ## The host: numbers and case mappings -/

/-- What the script takes from the JavaScript host: the arithmetic of numbers,
over the carrier `Number`, and the two case mappings of `String.prototype`.
The two laws state that either case mapping sends the empty string to the
empty string. -/
structure Host (Number : Type) where
  /-- The value of `a + b`. -/
  add : Number → Number → Number
  /-- The value of `a - b`. -/
  sub : Number → Number → Number
  /-- The value of `a * b`. -/
  mul : Number → Number → Number
  /-- The value of `a / b`. -/
  div : Number → Number → Number
  /-- The test `x === 0` (true for either signed zero, false otherwise). -/
  isZero : Number → Bool
  /-- The value of a non-negative integer literal. -/
  ofNat : Nat → Number
  /-- The string a number converts to inside a template literal. -/
  numberToString : Number → JSString
  /-- The method `String.prototype.toUpperCase`. -/
  toUpperCase : JSString → JSString
  /-- The method `String.prototype.toLowerCase`. -/
  toLowerCase : JSString → JSString
  toUpperCase_empty : toUpperCase [] = []
  toLowerCase_empty : toLowerCase [] = []

/-- The result of `performMathOperation`: a number or a string. -/
inductive MathResult (α : Type) where
  | number (n : α)
  | string (s : JSString)
  deriving DecidableEq

/-- Whether a result is of type string. -/
def MathResult.isString {α : Type} : MathResult α → Bool
  | .number _ => false
  | .string _ => true

/-! ## Part 2: the pure functions -/

/-- The global `globalMessage`. -/
def globalMessage : JSString :=
  js "I am a variable defined in the global scope."

/-- The function `manipulateString(input, operation)`: `charAt(0)` is the first
code unit (or the empty string), `slice(1)` is everything after it. -/
def manipulateString {α : Type} (H : Host α) (input operation : JSString) : JSString :=
  if operation = js "uppercase" then
    H.toUpperCase input
  else if operation = js "lowercase" then
    H.toLowerCase input
  else if operation = js "capitalize" then
    H.toUpperCase (input.take 1) ++ H.toLowerCase (input.drop 1)
  else
    input

/-- The function `performMathOperation(a, b, operation)`. -/
def performMathOperation {α : Type} (H : Host α) (a b : α) (operation : JSString) :
    MathResult α :=
  if operation = js "add" then
    .number (H.add a b)
  else if operation = js "subtract" then
    .number (H.sub a b)
  else if operation = js "multiply" then
    .number (H.mul a b)
  else if operation = js "divide" then
    if H.isZero b = false then .number (H.div a b)
    else .string (js "Error: Division by zero")
  else
    .string (js "Invalid operation")

/-- The string a `performMathOperation` result converts to in a template literal. -/
def MathResult.render {α : Type} (H : Host α) : MathResult α → JSString
  | .number n => H.numberToString n
  | .string s => s

/-! ## The document -/

/-- A `transitionend` listener registered by `toggleAnimationClass`: the closure
`handler`, with its identity and the two variables it captures. -/
structure Listener where
  /-- Identity of the function object. -/
  ident : Nat
  /-- The captured `element`, as a position. -/
  element : Nat
  /-- The captured `className`. -/
  className : JSString
  deriving DecidableEq

/-- A child node of an element: a text node with its data, or an element, given
by its position. -/
inductive ChildNode where
  | text (data : JSString)
  | element (position : Nat)
  deriving DecidableEq

/-- An element object. -/
structure Element where
  /-- The id of the element, if it has one. -/
  id : Option JSString
  /-- The tokens of `classList`, in order. -/
  classList : List JSString
  /-- The child nodes of the element, in order. -/
  childNodes : List ChildNode
  /-- The inline style property `display`. -/
  display : JSString
  /-- The inline style property `animationPlayState`. -/
  animationPlayState : JSString
  /-- The listeners registered for `transitionend`, in registration order. -/
  transitionend : List Listener
  deriving DecidableEq

/-- The state the script reads and writes. -/
structure Page where
  /-- The element objects, the root of the document at position 0. -/
  elements : List Element
  /-- The property `document.body.style.overflow`. -/
  bodyOverflow : JSString
  /-- The global `globalCounter`; a natural number, exact below 2^53. -/
  globalCounter : Nat
  /-- The lines written by `console.log`, each with its arguments. -/
  console : List (List JSString)
  /-- The identity the next function object created for a listener receives. -/
  nextListener : Nat
  /-- The number of pending `setTimeout` callbacks of the load handler. -/
  fadeTimers : Nat
  deriving DecidableEq

/-- The positions of the element at `i` and of its descendants, in tree order,
down to `depth` levels. -/
def subtreeAux (elements : List Element) : Nat → Nat → List Nat
  | 0, _ => []
  | depth + 1, i =>
    match elements[i]? with
    | none => []
    | some e =>
      i :: e.childNodes.flatMap (fun c =>
        match c with
        | .text _ => []
        | .element j => subtreeAux elements depth j)

/-- The positions of the element at `i` and of its descendants, in tree order.
A tree over the elements is not deeper than their number. -/
def subtree (elements : List Element) (i : Nat) : List Nat :=
  subtreeAux elements elements.length i

/-- The positions of the elements of the document, in tree order. -/
def document (elements : List Element) : List Nat :=
  subtree elements 0

/-- Whether a child node of the element at position `i` is a text node or an
element at a later position. -/
def childAfter (i : Nat) : ChildNode → Bool
  | .text _ => true
  | .element j => decide (i < j)

/-- The child nodes of the element at a position. -/
def childNodesAt (elements : List Element) (i : Nat) : List ChildNode :=
  match elements[i]? with
  | none => []
  | some e => e.childNodes

/-- The elements are listed in document order: every child element has a later
position than its parent. -/
def DocumentOrder (elements : List Element) : Prop :=
  ∀ i, i < elements.length → ∀ c ∈ childNodesAt elements i, childAfter i c = true

instance decidableDocumentOrder (elements : List Element) :
    Decidable (DocumentOrder elements) := by
  unfold DocumentOrder
  infer_instance

/-- The getter of `textContent` on the element at `i`: the data of its text
node descendants, in tree order, down to `depth` levels. -/
def textContentAux (elements : List Element) : Nat → Nat → JSString
  | 0, _ => []
  | depth + 1, i =>
    match elements[i]? with
    | none => []
    | some e =>
      e.childNodes.flatMap (fun c =>
        match c with
        | .text data => data
        | .element j => textContentAux elements depth j)

/-- The getter of `textContent` on the element at `i`. -/
def textContent (elements : List Element) (i : Nat) : JSString :=
  textContentAux elements elements.length i

/-- The setter of `textContent`: every child node is removed and, unless the
string is empty, one text node with the string is inserted. -/
def setTextContent (content : JSString) (e : Element) : Element :=
  { e with childNodes := if content = [] then [] else [.text content] }

/-- Whether the element at a position has the id. -/
def hasId (elements : List Element) (elementId : JSString) (i : Nat) : Bool :=
  match elements[i]? with
  | none => false
  | some e => decide (e.id = some elementId)

/-- Whether the element at a position has the class. -/
def hasClass (elements : List Element) (token : JSString) (i : Nat) : Bool :=
  match elements[i]? with
  | none => false
  | some e => decide (token ∈ e.classList)

/-- The method `document.getElementById`: the position of the first element of
the document, in tree order, whose id is `elementId`. -/
def getElementById (elements : List Element) (elementId : JSString) : Option Nat :=
  (document elements).find? (hasId elements elementId)

/-- The method `document.querySelector` on a class selector: the position of
the first element of the document, in tree order, that has the class. -/
def querySelectorClass (elements : List Element) (token : JSString) : Option Nat :=
  (document elements).find? (hasClass elements token)

/-- Whether `classList` accepts a token: it is not empty and has no ASCII
whitespace (otherwise `add`, `remove` and `toggle` throw). -/
def validToken (token : JSString) : Bool :=
  !token.isEmpty && token.all (fun u => !(u == 9 || u == 10 || u == 12 || u == 13 || u == 32))

/-- The method `classList.contains`. -/
def classListContains (token : JSString) (e : Element) : Bool :=
  decide (token ∈ e.classList)

/-- The method `classList.add`. -/
def classListAdd (token : JSString) (e : Element) : Element :=
  if token ∈ e.classList then e else { e with classList := e.classList ++ [token] }

/-- The method `classList.remove`. -/
def classListRemove (token : JSString) (e : Element) : Element :=
  { e with classList := e.classList.filter (fun t => t ≠ token) }

/-- The method `classList.toggle`. -/
def classListToggle (token : JSString) (e : Element) : Element :=
  if token ∈ e.classList then classListRemove token e
  else { e with classList := e.classList ++ [token] }

/-! ## Part 2: functions on the page -/

/-- The function `calculateArea(width, height)`, with its two console lines. -/
def calculateArea {α : Type} (H : Host α) (width height : α) (p : Page) : α × Page :=
  let area := H.mul width height
  (area, { p with console := p.console ++
    [[js "Local function can see:", globalMessage],
     [js "Calculating area with local unit:", js "sq. units"]] })

/-- The function `updateDOMText(elementId, content)`: the returned boolean and
the page afterwards. -/
def updateDOMText (elementId content : JSString) (p : Page) : Bool × Page :=
  match getElementById p.elements elementId with
  | some i =>
    (true, { p with elements := p.elements.modify (setTextContent content) i })
  | none => (false, p)

/-- The function `updateGlobalCounter()`. -/
def updateGlobalCounter (p : Page) : Page :=
  { p with
    globalCounter := p.globalCounter + 1
    console := p.console ++
      [[js "Global function call counter: " ++ js (toString (p.globalCounter + 1))]] }

/-! ## Part 3: animations, card, loader -/

/-- The constants the script resolves once when it loads; `none` is `null`. -/
structure Refs where
  /-- The constant `targetBox`. -/
  targetBox : Option Nat
  /-- The constant `flipCard`. -/
  flipCard : Option Nat
  /-- The constant `loader`. -/
  loader : Option Nat
  /-- The constant `modalBackdrop`. -/
  modalBackdrop : Option Nat
  deriving DecidableEq

/-- Loading the script: every element on which the top level calls
`addEventListener` has to exist, or the script stops with a `TypeError` before
it is fully wired (`none`). -/
def load (doc : List Element) : Option Refs :=
  if (getElementById doc (js "calculate-btn")).isSome
      ∧ (getElementById doc (js "string-btn")).isSome
      ∧ (getElementById doc (js "math-btn")).isSome
      ∧ (getElementById doc (js "trigger-animation-btn")).isSome
      ∧ (getElementById doc (js "flip-card-btn")).isSome
      ∧ (getElementById doc (js "start-loader-btn")).isSome
      ∧ (getElementById doc (js "stop-loader-btn")).isSome
      ∧ (getElementById doc (js "open-modal-btn")).isSome
      ∧ (getElementById doc (js "close-modal-btn")).isSome
      ∧ (querySelectorClass doc (js "close-btn")).isSome
      ∧ (getElementById doc (js "my-modal")).isSome then
    some
      { targetBox := getElementById doc (js "target-box")
        flipCard := getElementById doc (js "flip-card")
        loader := getElementById doc (js "loader")
        modalBackdrop := getElementById doc (js "my-modal") }
  else none

/-- Applies a mutation to the element a constant refers to; on `null` the
property access throws and nothing is changed. -/
def onElement (ref : Option Nat) (f : Element → Element) (p : Page) : Page :=
  match ref with
  | none => p
  | some i => { p with elements := p.elements.modify f i }

/-- The element a constant refers to. -/
def elementAt (ref : Option Nat) (p : Page) : Option Element :=
  ref.bind (fun i => p.elements[i]?)

/-- The function `toggleAnimationClass(element, className)`; each call that
finds the class present afterwards creates a new function object `handler`. -/
def toggleAnimationClass (element : Option Nat) (className : JSString) (p : Page) : Page :=
  match element with
  | none => p
  | some i =>
    match p.elements[i]? with
    | none => p
    | some e =>
      if validToken className = false then p
      else
        let e1 := classListToggle className e
        if classListContains className e1 then
          let handler : Listener := { ident := p.nextListener, element := i, className := className }
          let e2 := { e1 with transitionend := e1.transitionend ++ [handler] }
          (updateDOMText (js "target-box") (js "Animating...")
            { p with elements := p.elements.set i e2, nextListener := p.nextListener + 1 }).2
        else
          { p with elements := p.elements.set i e1 }

/-- The body of the listener `handler` of `toggleAnimationClass`. -/
def Listener.run (h : Listener) (p : Page) : Page :=
  let body : Element → Element := fun e =>
    { classListRemove h.className e with
      transitionend := e.transitionend.filter (fun l => l.ident ≠ h.ident) }
  (updateDOMText (js "target-box") (js "Click Again!")
    { p with elements := p.elements.modify body h.element }).2

/-- Whether a listener is still registered on the element at a position. -/
def registered (h : Listener) (target : Nat) (p : Page) : Bool :=
  match p.elements[target]? with
  | none => false
  | some e => e.transitionend.any (fun l => l.ident == h.ident)

/-- A `transitionend` event on the element at a position: the listeners
registered when the event is dispatched run in order, each unless it has been
removed meanwhile. -/
def dispatchTransitionend (target : Nat) (p : Page) : Page :=
  match p.elements[target]? with
  | none => p
  | some e =>
    e.transitionend.foldl (fun q h => if registered h target q then h.run q else q) p

/-- The function `toggleCardFlip(cardElement)`. -/
def toggleCardFlip (cardElement : Element) : Element :=
  classListToggle (js "flipped") cardElement

/-- The function `controlLoader(loaderElement, action)`. -/
def controlLoader (loaderElement : Element) (action : JSString) : Element :=
  if action = js "start" then { loaderElement with display := js "block" }
  else { loaderElement with display := js "none" }

/-! ## The modal -/

/-- The function `controlModal(action)`. -/
def controlModal (r : Refs) (action : JSString) (p : Page) : Page :=
  match r.modalBackdrop with
  | none => p
  | some m =>
    if action = js "open" then
      { p with
        elements := p.elements.modify (classListAdd (js "show")) m
        bodyOverflow := js "hidden" }
    else
      { p with
        elements := p.elements.modify (classListRemove (js "show")) m
        bodyOverflow := js "auto" }

/-- The test `modalBackdrop.classList.contains('show')`. -/
def modalShown (r : Refs) (p : Page) : Bool :=
  match elementAt r.modalBackdrop p with
  | none => false
  | some e => classListContains (js "show") e

/-! ## Event wiring -/

/-- The events the script listens to, and a direct call of `controlModal`. -/
inductive Event where
  | calculateClick
  | stringClick
  | mathClick
  | triggerClick
  | flipCardClick
  | startLoaderClick
  | stopLoaderClick
  | openModalClick
  | closeModalClick
  | closeXClick
  /-- A click that reaches the backdrop; the flag is `e.target === modalBackdrop`. -/
  | backdropClick (targetIsBackdrop : Bool)
  /-- A `keydown` on the document, with `e.key`. -/
  | keydown (key : JSString)
  /-- A `transitionend` on the element at a position. -/
  | transitionend (target : Nat)
  | domContentLoaded
  /-- The callback given to `setTimeout` runs. -/
  | fadeTimeout
  /-- A call `controlModal(action)`. -/
  | controlModalCall (action : JSString)
  deriving DecidableEq

/-- The click handler of `calculate-btn`. -/
def onCalculateClick {α : Type} (H : Host α) (p : Page) : Page :=
  let (resultArea, p1) := calculateArea H (H.ofNat 10) (H.ofNat 7) p
  let p2 := (updateDOMText (js "area-result") (H.numberToString resultArea) p1).2
  let p3 := (updateDOMText (js "global-check") globalMessage p2).2
  updateGlobalCounter
    { p3 with console := p3.console ++
      [[js "\n--- Scope Check ---"],
       [js "Global variable is: " ++ globalMessage],
       [js "The variable 'unit' is local to calculateArea() and is NOT accessible here."]] }

/-- The click handler of `string-btn`. -/
def onStringClick {α : Type} (H : Host α) (p : Page) : Page :=
  let originalString := js "Hello JavaScript World"
  let formatted := manipulateString H originalString (js "uppercase")
  updateGlobalCounter
    (updateDOMText (js "string-result")
      (js "\"" ++ originalString ++ js "\" → \"" ++ formatted ++ js "\"") p).2

/-- The click handler of `math-btn`. -/
def onMathClick {α : Type} (H : Host α) (p : Page) : Page :=
  let result := performMathOperation H (H.ofNat 15) (H.ofNat 3) (js "multiply")
  updateGlobalCounter
    (updateDOMText (js "math-result") (js "15 × 3 = " ++ result.render H) p).2

/-- The `keydown` handler of the document. -/
def onKeydown (r : Refs) (key : JSString) (p : Page) : Page :=
  if key = js "Escape" ∧ modalShown r p = true then controlModal r (js "close") p
  else p

/-- The callback of the load handler's `setTimeout`. -/
def onFadeTimeout (p : Page) : Page :=
  match querySelectorClass p.elements (js "fade-box") with
  | none => p
  | some i =>
    let running : Element → Element := fun e => { e with animationPlayState := js "running" }
    { p with elements := p.elements.modify running i }

/-- One event: the handler the script registered for it runs. -/
def step {α : Type} (H : Host α) (r : Refs) (ev : Event) (p : Page) : Page :=
  match ev with
  | .calculateClick => onCalculateClick H p
  | .stringClick => onStringClick H p
  | .mathClick => onMathClick H p
  | .triggerClick => toggleAnimationClass r.targetBox (js "active") p
  | .flipCardClick => onElement r.flipCard toggleCardFlip p
  | .startLoaderClick => onElement r.loader (fun e => controlLoader e (js "start")) p
  | .stopLoaderClick => onElement r.loader (fun e => controlLoader e (js "stop")) p
  | .openModalClick => controlModal r (js "open") p
  | .closeModalClick => controlModal r (js "close") p
  | .closeXClick => controlModal r (js "close") p
  | .backdropClick targetIsBackdrop =>
    if targetIsBackdrop then controlModal r (js "close") p else p
  | .keydown key => onKeydown r key p
  | .transitionend target => dispatchTransitionend target p
  | .domContentLoaded =>
    { p with
      console := p.console ++
        [[js "Page loaded successfully!"], [js "Global message:", globalMessage]]
      fadeTimers := p.fadeTimers + 1 }
  | .fadeTimeout =>
    if p.fadeTimers = 0 then p
    else onFadeTimeout { p with fadeTimers := p.fadeTimers - 1 }
  | .controlModalCall action => controlModal r action p

/-- A finite sequence of events, from left to right. -/
def run {α : Type} (H : Host α) (r : Refs) (evs : List Event) (p : Page) : Page :=
  evs.foldl (fun q ev => step H r ev q) p

/-- The events of the modal: its three close controls, its open button, a click
on the backdrop, a key press, and a call of `controlModal`. -/
def Event.isModalEvent : Event → Bool
  | .openModalClick => true
  | .closeModalClick => true
  | .closeXClick => true
  | .backdropClick _ => true
  | .keydown _ => true
  | .controlModalCall _ => true
  | _ => false

/-! ## Predicates and states used in the statements -/

/-- The invariant of the modal: the modal element exists, and the body has
overflow "hidden" exactly when the modal has class "show". -/
def ModalInv (r : Refs) (p : Page) : Prop :=
  (elementAt r.modalBackdrop p).isSome = true
  ∧ (p.bodyOverflow = js "hidden" ↔ modalShown r p = true)

/-- The target box after a trigger click that finds the class absent. -/
def activated (e : Element) (ident i : Nat) : Element :=
  { e with
    classList := e.classList ++ [js "active"]
    childNodes := [.text (js "Animating...")]
    transitionend := e.transitionend ++ [{ ident := ident, element := i, className := js "active" }] }

/-- The target box after its listener `h` has run. -/
def completed (e : Element) (h : Listener) : Element :=
  { e with
    classList := e.classList.filter (fun t => t ≠ h.className)
    childNodes := [.text (js "Click Again!")]
    transitionend := e.transitionend.filter (fun l => l.ident ≠ h.ident) }

/-- The state of the page after an odd number `2 * k + 1` of trigger clicks
from the idle state with next listener identity `n`: the target box at `i` has
the class and `k + 1` listeners with the identities `n, ..., n + k`. -/
def Pending (i n k : Nat) (q : Page) : Prop :=
  getElementById q.elements (js "target-box") = some i
  ∧ q.nextListener = n + k + 1
  ∧ ∃ e, q.elements[i]? = some e ∧ js "active" ∈ e.classList
      ∧ e.transitionend.map (fun l => l.ident) = List.range' n (k + 1)

/-! ## A concrete host for evaluation -/

/-- Upper-case mapping of one code unit, on the ASCII letters. -/
def asciiUpper (u : Nat) : Nat :=
  if 97 ≤ u ∧ u ≤ 122 then u - 32 else u

/-- Lower-case mapping of one code unit, on the ASCII letters. -/
def asciiLower (u : Nat) : Nat :=
  if 65 ≤ u ∧ u ≤ 90 then u + 32 else u

/-- A host that computes on exact rationals and maps the case of ASCII letters;
it agrees with a browser on ASCII text and on arithmetic whose operands and
result are small integers. -/
def demoHost : Host ℚ where
  add := fun a b => a + b
  sub := fun a b => a - b
  mul := fun a b => a * b
  div := fun a b => a / b
  isZero := fun x => decide (x = 0)
  ofNat := fun n => (n : ℚ)
  numberToString := fun x => js (toString x)
  toUpperCase := fun s => s.map asciiUpper
  toLowerCase := fun s => s.map asciiLower
  toUpperCase_empty := rfl
  toLowerCase_empty := rfl


/-- An element with an id, classes and child nodes, no inline style and no
listener. -/
def mkElement (id : String) (classes : List String) (children : List ChildNode) : Element :=
  { id := if id = "" then none else some (js id)
    classList := classes.map js
    childNodes := children
    display := []
    animationPlayState := []
    transitionend := [] }

/-- Modelled from the spec: the host markup (`index.html` is not among the
sources), as a sample page. The root element, at position 0, holds one element
for each identifier the script consumes and the optional element with class
`fade-box`;
the modal holds a dialog with the control of class `close-btn` and the close
button. The theorems take the page as a parameter; this page is the concrete
input on which they are evaluated. -/
def demoPage : Page :=
  { elements :=
      [ mkElement "" []
          ((List.range 17).map (fun k => ChildNode.element (k + 1))),
        mkElement "calculate-btn" [] [.text (js "Calculate")],
        mkElement "area-result" [] [],
        mkElement "global-check" [] [],
        mkElement "string-btn" [] [.text (js "Format")],
        mkElement "string-result" [] [],
        mkElement "math-btn" [] [.text (js "Multiply")],
        mkElement "math-result" [] [],
        mkElement "" ["fade-box"] [],
        mkElement "target-box" ["box"] [.text (js "Click Me!")],
        mkElement "trigger-animation-btn" [] [],
        mkElement "flip-card" ["card"] [],
        mkElement "flip-card-btn" [] [],
        mkElement "loader" [] [],
        mkElement "start-loader-btn" [] [],
        mkElement "stop-loader-btn" [] [],
        mkElement "open-modal-btn" [] [],
        mkElement "my-modal" ["modal"] [.element 18],
        mkElement "" ["modal-content"]
          [.text (js "Hello"), .element 19, .element 20],
        mkElement "" ["close-btn"] [.text (js "×")],
        mkElement "close-modal-btn" [] [.text (js "Close")] ]
    bodyOverflow := []
    globalCounter := 0
    console := []
    nextListener := 0
    fadeTimers := 0 }

/-- The constants of the script on `demoPage`. -/
def demoRefs : Refs :=
  { targetBox := some 9, flipCard := some 11, loader := some 13, modalBackdrop := some 17 }

/-! ## Theorems: the pure functions -/

/-- C1: `performMathOperation(a, b, op)` is `a + b`, `a - b`, `a * b` for the
operations add, subtract, multiply; for divide it is `a / b` when `b` is not 0
and the string "Error: Division by zero" when `b` is 0; for every other
operation it is the string "Invalid operation". The result is a string exactly
when the operation is divide with `b` equal to 0 or is none of the four names.
The function is total: it has a result on every input. -/
theorem performMathOperation_spec {α : Type} (H : Host α) (a b : α) (op : JSString) :
    performMathOperation H a b (js "add") = .number (H.add a b)
    ∧ performMathOperation H a b (js "subtract") = .number (H.sub a b)
    ∧ performMathOperation H a b (js "multiply") = .number (H.mul a b)
    ∧ (H.isZero b = false →
        performMathOperation H a b (js "divide") = .number (H.div a b))
    ∧ (H.isZero b = true →
        performMathOperation H a b (js "divide") = .string (js "Error: Division by zero"))
    ∧ (op ≠ js "add" → op ≠ js "subtract" → op ≠ js "multiply" → op ≠ js "divide" →
        performMathOperation H a b op = .string (js "Invalid operation"))
    ∧ ((performMathOperation H a b op).isString = true ↔
        (op = js "divide" ∧ H.isZero b = true)
        ∨ (op ≠ js "add" ∧ op ≠ js "subtract" ∧ op ≠ js "multiply" ∧ op ≠ js "divide")) := by
  have h1 : js "subtract" ≠ js "add" := by decide
  have h2 : js "multiply" ≠ js "add" := by decide
  have h3 : js "multiply" ≠ js "subtract" := by decide
  have h4 : js "divide" ≠ js "add" := by decide
  have h5 : js "divide" ≠ js "subtract" := by decide
  have h6 : js "divide" ≠ js "multiply" := by decide
  refine ⟨?_, ?_, ?_, ?_, ?_, ?_, ?_⟩
  · simp [performMathOperation]
  · simp [performMathOperation, h1]
  · simp [performMathOperation, h2, h3]
  · intro hb
    simp [performMathOperation, h4, h5, h6, hb]
  · intro hb
    simp [performMathOperation, h4, h5, h6, hb]
  · intro ha hs hm hd
    simp [performMathOperation, ha, hs, hm, hd]
  · unfold performMathOperation
    by_cases ha : op = js "add"
    · simp [ha, MathResult.isString, h4.symm]
    · by_cases hs : op = js "subtract"
      · simp [hs, h1, MathResult.isString, h5.symm]
      · by_cases hm : op = js "multiply"
        · simp [hm, h2, h3, MathResult.isString, h6.symm]
        · by_cases hd : op = js "divide"
          · cases hb : H.isZero b <;> simp [hd, h4, h5, h6, hb, MathResult.isString]
          · simp [ha, hs, hm, hd, MathResult.isString]

/-- C1, at concrete inputs: `5 / 0` is the division-by-zero string, `15 / 3` is
a number, and the operation "foo" is invalid. -/
theorem performMathOperation_spec_witness :
    performMathOperation demoHost (5 : ℚ) 0 (js "divide") = .string (js "Error: Division by zero")
    ∧ performMathOperation demoHost (15 : ℚ) 3 (js "divide") = .number (demoHost.div 15 3)
    ∧ performMathOperation demoHost (1 : ℚ) 2 (js "foo") = .string (js "Invalid operation") :=
  ⟨(performMathOperation_spec demoHost (5 : ℚ) 0 (js "foo")).2.2.2.2.1 (by decide),
   (performMathOperation_spec demoHost (15 : ℚ) 3 (js "foo")).2.2.2.1 (by decide),
   (performMathOperation_spec demoHost (1 : ℚ) 2 (js "foo")).2.2.2.2.2.1
      (by decide) (by decide) (by decide) (by decide)⟩

/-- C2: `manipulateString(input, op)` is the upper-cased input for uppercase,
the lower-cased input for lowercase, the first code unit upper-cased followed
by the remainder lower-cased for capitalize (the empty string for the empty
string), and the input itself for every other operation. -/
theorem manipulateString_spec {α : Type} (H : Host α) (input op : JSString) :
    manipulateString H input (js "uppercase") = H.toUpperCase input
    ∧ manipulateString H input (js "lowercase") = H.toLowerCase input
    ∧ manipulateString H input (js "capitalize")
        = H.toUpperCase (input.take 1) ++ H.toLowerCase (input.drop 1)
    ∧ (∀ c rest, input = c :: rest →
        manipulateString H input (js "capitalize") = H.toUpperCase [c] ++ H.toLowerCase rest)
    ∧ manipulateString H [] (js "capitalize") = []
    ∧ (op ≠ js "uppercase" → op ≠ js "lowercase" → op ≠ js "capitalize" →
        manipulateString H input op = input) := by
  have h1 : js "lowercase" ≠ js "uppercase" := by decide
  have h2 : js "capitalize" ≠ js "uppercase" := by decide
  have h3 : js "capitalize" ≠ js "lowercase" := by decide
  refine ⟨?_, ?_, ?_, ?_, ?_, ?_⟩
  · simp [manipulateString]
  · simp [manipulateString, h1]
  · simp [manipulateString, h2, h3]
  · intro c rest hc
    subst hc
    simp [manipulateString, h2, h3]
  · simp [manipulateString, h2, h3, H.toUpperCase_empty, H.toLowerCase_empty]
  · intro hu hl hc
    simp [manipulateString, hu, hl, hc]

/-- C2, at concrete inputs: "abc" capitalizes to "Abc", and an unknown
operation returns the input. -/
theorem manipulateString_spec_witness :
    manipulateString demoHost (js "abc") (js "capitalize")
      = demoHost.toUpperCase [97] ++ demoHost.toLowerCase [98, 99]
    ∧ manipulateString demoHost (js "abc") (js "reverse") = js "abc" :=
  ⟨(manipulateString_spec demoHost (js "abc") (js "reverse")).2.2.2.1 97 [98, 99] (by decide),
   (manipulateString_spec demoHost (js "abc") (js "reverse")).2.2.2.2.2
      (by decide) (by decide) (by decide)⟩

/-- C6: a single `toggleCardFlip` changes the membership of "flipped" and of no
other class, and nothing else of the card; two calls restore the membership of
every class. -/
theorem toggleCardFlip_involution (card : Element) :
    ((js "flipped" ∈ (toggleCardFlip card).classList) ↔ ¬ (js "flipped" ∈ card.classList))
    ∧ (∀ c, c ≠ js "flipped" → (c ∈ (toggleCardFlip card).classList ↔ c ∈ card.classList))
    ∧ { toggleCardFlip card with classList := card.classList } = card
    ∧ (∀ c, c ∈ (toggleCardFlip (toggleCardFlip card)).classList ↔ c ∈ card.classList)
    ∧ { toggleCardFlip (toggleCardFlip card) with classList := card.classList } = card := by
  have one : ∀ e : Element,
      ((js "flipped" ∈ (toggleCardFlip e).classList) ↔ ¬ (js "flipped" ∈ e.classList))
      ∧ (∀ c, c ≠ js "flipped" → (c ∈ (toggleCardFlip e).classList ↔ c ∈ e.classList))
      ∧ { toggleCardFlip e with classList := e.classList } = e := by
    intro e
    unfold toggleCardFlip classListToggle classListRemove
    by_cases h : js "flipped" ∈ e.classList
    · simp only [h, if_true]
      refine ⟨by simp, ?_, trivial⟩
      intro c hc
      simp [List.mem_filter, hc]
    · simp only [h, if_false]
      refine ⟨by simp, ?_, trivial⟩
      intro c hc
      simp [hc]
  obtain ⟨a1, b1, c1⟩ := one card
  obtain ⟨a2, b2, c2⟩ := one (toggleCardFlip card)
  refine ⟨a1, b1, c1, ?_, ?_⟩
  · intro c
    by_cases hc : c = js "flipped"
    · subst hc
      rw [a2, a1, not_not]
    · rw [b2 c hc, b1 c hc]
  · have e2 : { toggleCardFlip (toggleCardFlip card) with classList := card.classList }
        = { toggleCardFlip card with classList := card.classList } := by
      have := congrArg (fun e : Element => { e with classList := card.classList }) c2
      simpa using this
    rw [e2, c1]

/-- C6, on a card with classes "card" and "flipped": the class "card" is kept
by a call. -/
theorem toggleCardFlip_involution_witness :
    (js "card" ∈ (toggleCardFlip (mkElement "flip-card" ["card", "flipped"] [])).classList
      ↔ js "card" ∈ (mkElement "flip-card" ["card", "flipped"] []).classList) :=
  (toggleCardFlip_involution (mkElement "flip-card" ["card", "flipped"] [])).2.1 (js "card")
    (by decide)

/-! ## Lemmas on the document -/

theorem lt_of_getElem? (doc : List Element) (i : Nat) (e : Element)
    (he : doc[i]? = some e) : i < doc.length := by
  rcases Nat.lt_or_ge i doc.length with h | h
  · exact h
  · rw [List.getElem?_eq_none h] at he
    cases he

theorem flatMap_congr_mem {β γ : Type} (l : List β) (f g : β → List γ)
    (h : ∀ c ∈ l, f c = g c) : l.flatMap f = l.flatMap g := by
  induction l with
  | nil => rfl
  | cons c cs ih =>
    simp only [List.flatMap_cons]
    rw [h c (by simp), ih (fun d hd => h d (by simp [hd]))]

theorem lt_of_child (doc : List Element) (h : DocumentOrder doc) (i j : Nat) (e : Element)
    (he : doc[i]? = some e) (hc : ChildNode.element j ∈ e.childNodes) : i < j := by
  have := h i (lt_of_getElem? doc i e he) (.element j) (by simp [childNodesAt, he, hc])
  simpa [childAfter] using this

/-- On a page listed in document order one more level of depth than the number
of remaining positions adds nothing to a subtree. -/
theorem subtreeAux_succ (doc : List Element) (h : DocumentOrder doc) (d i : Nat)
    (hd : doc.length ≤ i + d) : subtreeAux doc (d + 1) i = subtreeAux doc d i := by
  induction d generalizing i with
  | zero =>
    have : doc[i]? = none := List.getElem?_eq_none (by omega)
    simp [subtreeAux, this]
  | succ d ih =>
    rw [subtreeAux, subtreeAux]
    cases he : doc[i]? with
    | none => rfl
    | some e =>
      simp only
      congr 1
      apply flatMap_congr_mem
      intro c hc
      cases c with
      | text _ => rfl
      | element j =>
        have := lt_of_child doc h i j e he hc
        exact ih j (by omega)

/-- On a page listed in document order the depth bound of `subtree` is never
reached: any larger depth gives the same subtree. -/
theorem subtreeAux_depth (doc : List Element) (h : DocumentOrder doc) (i k : Nat) :
    subtreeAux doc (doc.length + k) i = subtree doc i := by
  induction k with
  | zero => rfl
  | succ k ih =>
    rw [← ih]
    exact subtreeAux_succ doc h (doc.length + k) i (by omega)

/-- On a page listed in document order one more level of depth than the number
of remaining positions adds nothing to a text. -/
theorem textContentAux_succ (doc : List Element) (h : DocumentOrder doc) (d i : Nat)
    (hd : doc.length ≤ i + d) : textContentAux doc (d + 1) i = textContentAux doc d i := by
  induction d generalizing i with
  | zero =>
    have : doc[i]? = none := List.getElem?_eq_none (by omega)
    simp [textContentAux, this]
  | succ d ih =>
    rw [textContentAux, textContentAux]
    cases he : doc[i]? with
    | none => rfl
    | some e =>
      simp only
      apply flatMap_congr_mem
      intro c hc
      cases c with
      | text _ => rfl
      | element j =>
        have := lt_of_child doc h i j e he hc
        exact ih j (by omega)

/-- On a page listed in document order the depth bound of `textContent` is
never reached: any larger depth gives the same text. -/
theorem textContentAux_depth (doc : List Element) (h : DocumentOrder doc) (i k : Nat) :
    textContentAux doc (doc.length + k) i = textContent doc i := by
  induction k with
  | zero => rfl
  | succ k ih =>
    rw [← ih]
    exact textContentAux_succ doc h (doc.length + k) i (by omega)

theorem getElementById_some (doc : List Element) (x : JSString) (i : Nat)
    (h : getElementById doc x = some i) :
    ∃ e, doc[i]? = some e ∧ e.id = some x := by
  have hp := List.find?_some h
  unfold hasId at hp
  cases he : doc[i]? with
  | none => simp [he] at hp
  | some e =>
    simp only [he, decide_eq_true_eq] at hp
    exact ⟨e, rfl, hp⟩

theorem getElementById_mem (doc : List Element) (x : JSString) (i : Nat)
    (h : getElementById doc x = some i) : i ∈ document doc :=
  List.mem_of_find?_eq_some h

theorem getElementById_isSome (doc : List Element) (x : JSString) :
    (getElementById doc x).isSome = true
      ↔ ∃ i ∈ document doc, ∃ e, doc[i]? = some e ∧ e.id = some x := by
  unfold getElementById
  rw [List.find?_isSome]
  constructor
  · rintro ⟨i, hi, hp⟩
    unfold hasId at hp
    cases he : doc[i]? with
    | none => simp [he] at hp
    | some e =>
      simp only [he, decide_eq_true_eq] at hp
      exact ⟨i, hi, e, he, hp⟩
  · rintro ⟨i, hi, e, he, hx⟩
    exact ⟨i, hi, by simp [hasId, he, hx]⟩

theorem find?_flatMap_congr {β : Type} (P : Nat → Bool) (l : List β) (f g : β → List Nat)
    (h : ∀ c ∈ l, (f c).find? P = (g c).find? P) :
    (l.flatMap f).find? P = (l.flatMap g).find? P := by
  induction l with
  | nil => rfl
  | cons c cs ih =>
    simp only [List.flatMap_cons, List.find?_append]
    rw [h c (by simp), ih (fun d hd => h d (by simp [hd]))]

/-- Changing the element at `i` does not change which element a search finds
first, when the element at `i` satisfies the search. -/
theorem find?_subtreeAux_modify (doc : List Element) (f : Element → Element) (i : Nat)
    (P : Nat → Bool) (hP : P i = true) (depth j : Nat) :
    (subtreeAux (doc.modify f i) depth j).find? P = (subtreeAux doc depth j).find? P := by
  induction depth generalizing j with
  | zero => rfl
  | succ d ih =>
    unfold subtreeAux
    by_cases hj : i = j
    · subst hj
      rw [List.getElem?_modify_eq]
      cases doc[i]? with
      | none => rfl
      | some e => simp [List.find?_cons, hP]
    · rw [List.getElem?_modify_ne _ _ hj]
      cases doc[j]? with
      | none => rfl
      | some e =>
        simp only [List.find?_cons]
        cases P j with
        | true => rfl
        | false =>
          simp only
          apply find?_flatMap_congr
          intro c _
          cases c with
          | text _ => rfl
          | element k => exact ih k

theorem hasId_modify (doc : List Element) (f : Element → Element) (i : Nat) (x : JSString)
    (hf : ∀ e, (f e).id = e.id) :
    hasId (doc.modify f i) x = hasId doc x := by
  funext k
  unfold hasId
  by_cases hk : i = k
  · subst hk
    rw [List.getElem?_modify_eq]
    cases doc[i]? with
    | none => rfl
    | some e => simp [hf]
  · rw [List.getElem?_modify_ne _ _ hk]

/-- A change of the element that has the id, which keeps the id, does not
change what `getElementById` finds for that id. -/
theorem getElementById_modify (doc : List Element) (f : Element → Element) (i : Nat)
    (e : Element) (x : JSString)
    (he : doc[i]? = some e) (hx : e.id = some x) (hf : ∀ a, (f a).id = a.id) :
    getElementById (doc.modify f i) x = getElementById doc x := by
  unfold getElementById document subtree
  rw [hasId_modify doc f i x hf, List.length_modify]
  exact find?_subtreeAux_modify doc f i _ (by simp [hasId, he, hx]) _ _

theorem modify_eq_set_of (doc : List Element) (i : Nat) (e : Element) (f : Element → Element)
    (he : doc[i]? = some e) : doc.modify f i = doc.set i (f e) := by
  apply List.ext_getElem?
  intro n
  have hlt := lt_of_getElem? doc i e he
  by_cases hn : i = n
  · subst hn
    have hget : doc[i] = e := by
      have h := List.getElem?_eq_getElem hlt
      rw [h] at he
      exact Option.some.inj he
    simp [List.getElem?_set, hlt, hget]
  · simp [List.getElem?_modify_ne _ _ hn, List.getElem?_set, hn]

theorem getElementById_set (doc : List Element) (i : Nat) (e a : Element) (x : JSString)
    (he : doc[i]? = some e) (hx : e.id = some x) (ha : a.id = e.id) :
    getElementById (doc.set i a) x = getElementById doc x := by
  have h1 : doc.set i a = doc.modify (fun b => { a with id := b.id }) i := by
    rw [modify_eq_set_of doc i e _ he]
    congr 1
    cases a
    simp only at ha
    simp [ha]
  rw [h1]
  exact getElementById_modify doc _ i e x he hx (fun _ => rfl)

/-- The text of an element does not depend on an element outside its subtree. -/
theorem textContentAux_modify (doc : List Element) (f : Element → Element) (i : Nat)
    (depth j : Nat) (h : ¬ i ∈ subtreeAux doc depth j) :
    textContentAux (doc.modify f i) depth j = textContentAux doc depth j := by
  induction depth generalizing j with
  | zero => rfl
  | succ d ih =>
    unfold textContentAux
    unfold subtreeAux at h
    cases hj : doc[j]? with
    | none =>
      have : (doc.modify f i)[j]? = none := by
        simp [List.getElem?_modify, hj]
      rw [this]
    | some e =>
      simp only [hj, List.mem_cons, List.mem_flatMap, not_or, not_exists, not_and] at h
      rw [List.getElem?_modify_ne _ _ h.1, hj]
      simp only
      apply flatMap_congr_mem
      intro c hc
      cases c with
      | text _ => rfl
      | element k => exact ih k (h.2 _ hc)

theorem subtreeAux_setTextContent_subset (doc : List Element) (content : JSString) (i : Nat)
    (depth j k : Nat)
    (h : k ∈ subtreeAux (doc.modify (setTextContent content) i) depth j) :
    k ∈ subtreeAux doc depth j := by
  induction depth generalizing j with
  | zero => simp [subtreeAux] at h
  | succ d ih =>
    unfold subtreeAux at h ⊢
    by_cases hj : i = j
    · subst hj
      rw [List.getElem?_modify_eq] at h
      cases he : doc[i]? with
      | none => simp [he] at h
      | some e =>
        rw [he] at h
        by_cases hc : content = [] <;> simp [setTextContent, hc] at h <;> simp [h]
    · rw [List.getElem?_modify_ne _ _ hj] at h
      cases he : doc[j]? with
      | none => simp [he] at h
      | some e =>
        simp only [he, List.mem_cons, List.mem_flatMap] at h ⊢
        rcases h with h | ⟨c, hc, hk⟩
        · exact Or.inl h
        · refine Or.inr ⟨c, hc, ?_⟩
          cases c with
          | text _ => simp at hk
          | element m => exact ih m hk

theorem textContent_setTextContent (doc : List Element) (content : JSString) (i : Nat)
    (e : Element) (he : doc[i]? = some e) :
    textContent (doc.modify (setTextContent content) i) i = content
    ∧ subtree (doc.modify (setTextContent content) i) i = [i] := by
  have hlt := lt_of_getElem? doc i e he
  unfold textContent subtree
  rw [List.length_modify]
  obtain ⟨n, hn⟩ : ∃ n, doc.length = n + 1 := ⟨doc.length - 1, by omega⟩
  rw [hn]
  unfold textContentAux subtreeAux
  rw [List.getElem?_modify_eq, he]
  by_cases hc : content = [] <;> simp [setTextContent, hc]

/-- The sample page is listed in document order. -/
theorem demoPage_documentOrder : DocumentOrder demoPage.elements := by
  decide

/-! ## Theorems: the text updater -/

/-- C3, as the claim states it, fails on a page with nested elements: the call
on "my-modal" returns true and sets the text of the modal, at position 17, and
the text of another element, the root element at position 0 that contains the
modal, is not what it was; the close button inside the modal leaves the
document, so that a later call on its id returns false where a call before
returns true. -/
theorem updateDOMText_changes_other_text :
    (updateDOMText (js "my-modal") (js "x") demoPage).1 = true
    ∧ getElementById demoPage.elements (js "my-modal") = some 17
    ∧ textContent (updateDOMText (js "my-modal") (js "x") demoPage).2.elements 17 = js "x"
    ∧ textContent (updateDOMText (js "my-modal") (js "x") demoPage).2.elements 0
        ≠ textContent demoPage.elements 0
    ∧ (updateDOMText (js "close-modal-btn") (js "y") demoPage).1 = true
    ∧ (updateDOMText (js "close-modal-btn") (js "y")
        (updateDOMText (js "my-modal") (js "x") demoPage).2).1 = false := by
  decide

/-- C3, amended: `updateDOMText(id, content)` returns true exactly when an
element with that id is in the document. When it returns true, the first such
element in tree order has `content` as its text afterwards and no element below
it; it is otherwise as before, every other element object and the rest of the
page are unchanged, no element enters the document, and every element that does
not contain it (every element but its ancestors) has the text it had. When it
returns false the page is the page before the call. -/
theorem updateDOMText_spec (p : Page) (elementId content : JSString) :
    ((updateDOMText elementId content p).1 = true
      ↔ ∃ i ∈ document p.elements, ∃ e, p.elements[i]? = some e ∧ e.id = some elementId)
    ∧ ((updateDOMText elementId content p).1 = true →
        ∃ i e, getElementById p.elements elementId = some i
          ∧ i ∈ document p.elements
          ∧ p.elements[i]? = some e ∧ e.id = some elementId
          ∧ (updateDOMText elementId content p).2.elements[i]?
              = some (setTextContent content e)
          ∧ textContent (updateDOMText elementId content p).2.elements i = content
          ∧ subtree (updateDOMText elementId content p).2.elements i = [i]
          ∧ (∀ j, ¬ i ∈ subtree p.elements j →
              textContent (updateDOMText elementId content p).2.elements j
                = textContent p.elements j)
          ∧ (∀ j, j ≠ i →
              (updateDOMText elementId content p).2.elements[j]? = p.elements[j]?)
          ∧ (∀ k, k ∈ document (updateDOMText elementId content p).2.elements →
              k ∈ document p.elements)
          ∧ { (updateDOMText elementId content p).2 with elements := p.elements } = p)
    ∧ ((updateDOMText elementId content p).1 = false →
        (updateDOMText elementId content p).2 = p) := by
  refine ⟨?_, ?_, ?_⟩
  · rw [← getElementById_isSome]
    unfold updateDOMText
    cases getElementById p.elements elementId <;> simp
  · unfold updateDOMText
    cases h : getElementById p.elements elementId with
    | none => simp
    | some i =>
      intro _
      obtain ⟨e, he, hx⟩ := getElementById_some _ _ _ h
      obtain ⟨ht, hs⟩ := textContent_setTextContent p.elements content i e he
      refine ⟨i, e, rfl, getElementById_mem _ _ _ h, he, hx, ?_, ht, hs, ?_, ?_, ?_, ?_⟩
      · simp [List.getElem?_modify_eq, he]
      · intro j hj
        show textContentAux (p.elements.modify (setTextContent content) i)
          (p.elements.modify (setTextContent content) i).length j = _
        rw [List.length_modify]
        exact textContentAux_modify p.elements _ i _ j hj
      · intro j hj
        simp [List.getElem?_modify_ne _ _ (Ne.symm hj)]
      · intro k hk
        have hk' : k ∈ subtreeAux (p.elements.modify (setTextContent content) i)
            (p.elements.modify (setTextContent content) i).length 0 := hk
        rw [List.length_modify] at hk'
        exact subtreeAux_setTextContent_subset p.elements content i _ 0 k hk'
      · rfl
  · unfold updateDOMText
    cases getElementById p.elements elementId <;> simp

/-- C3, amended, on the demo page: the call on "area-result" returns true and
sets the text of that element; the call on an absent id leaves the page as it
is. -/
theorem updateDOMText_spec_witness :
    (∃ i e, getElementById demoPage.elements (js "area-result") = some i
      ∧ i ∈ document demoPage.elements
      ∧ demoPage.elements[i]? = some e ∧ e.id = some (js "area-result")
      ∧ (updateDOMText (js "area-result") (js "70") demoPage).2.elements[i]?
          = some (setTextContent (js "70") e)
      ∧ textContent (updateDOMText (js "area-result") (js "70") demoPage).2.elements i = js "70"
      ∧ subtree (updateDOMText (js "area-result") (js "70") demoPage).2.elements i = [i]
      ∧ (∀ j, ¬ i ∈ subtree demoPage.elements j →
          textContent (updateDOMText (js "area-result") (js "70") demoPage).2.elements j
            = textContent demoPage.elements j)
      ∧ (∀ j, j ≠ i →
          (updateDOMText (js "area-result") (js "70") demoPage).2.elements[j]?
            = demoPage.elements[j]?)
      ∧ (∀ k, k ∈ document (updateDOMText (js "area-result") (js "70") demoPage).2.elements →
          k ∈ document demoPage.elements)
      ∧ { (updateDOMText (js "area-result") (js "70") demoPage).2 with
            elements := demoPage.elements } = demoPage)
    ∧ (updateDOMText (js "no-such-id") (js "70") demoPage).2 = demoPage :=
  ⟨(updateDOMText_spec demoPage (js "area-result") (js "70")).2.1 (by decide),
   (updateDOMText_spec demoPage (js "no-such-id") (js "70")).2.2 (by decide)⟩

/-! ## Lemmas on the modal -/

theorem load_refs (doc : List Element) (r : Refs) (h : load doc = some r) :
    r.targetBox = getElementById doc (js "target-box")
    ∧ r.modalBackdrop = getElementById doc (js "my-modal")
    ∧ ∃ m e, r.modalBackdrop = some m ∧ doc[m]? = some e := by
  unfold load at h
  split at h
  · rename_i hc
    simp only [Option.some.injEq] at h
    subst h
    refine ⟨rfl, rfl, ?_⟩
    have hm := hc.2.2.2.2.2.2.2.2.2.2
    obtain ⟨m, hm'⟩ := Option.isSome_iff_exists.mp hm
    obtain ⟨e, he, _⟩ := getElementById_some _ _ _ hm'
    exact ⟨m, e, hm', he⟩
  · simp at h

theorem classListAdd_idem (token : JSString) (e : Element) :
    classListAdd token (classListAdd token e) = classListAdd token e := by
  unfold classListAdd
  by_cases h : token ∈ e.classList <;> simp [h]

theorem mem_classListAdd (token : JSString) (e : Element) :
    token ∈ (classListAdd token e).classList := by
  unfold classListAdd
  by_cases h : token ∈ e.classList <;> simp [h]

theorem not_mem_classListRemove (token : JSString) (e : Element) :
    ¬ token ∈ (classListRemove token e).classList := by
  simp [classListRemove, List.mem_filter]

theorem controlModal_open_shown (r : Refs) (p : Page)
    (h : (elementAt r.modalBackdrop p).isSome = true) :
    modalShown r (controlModal r (js "open") p) = true
    ∧ (controlModal r (js "open") p).bodyOverflow = js "hidden" := by
  unfold modalShown controlModal elementAt at *
  cases hm : r.modalBackdrop with
  | none => simp [hm] at h
  | some m =>
    simp only [hm, Option.some_bind] at h ⊢
    obtain ⟨e, he⟩ := Option.isSome_iff_exists.mp h
    simp [he, classListContains, mem_classListAdd]

theorem controlModal_close_hidden (r : Refs) (p : Page) (action : JSString)
    (ha : action ≠ js "open") (h : (elementAt r.modalBackdrop p).isSome = true) :
    modalShown r (controlModal r action p) = false
    ∧ (controlModal r action p).bodyOverflow = js "auto" := by
  unfold modalShown controlModal elementAt at *
  cases hm : r.modalBackdrop with
  | none => simp [hm] at h
  | some m =>
    simp only [hm, Option.some_bind] at h ⊢
    obtain ⟨e, he⟩ := Option.isSome_iff_exists.mp h
    simp [he, ha, classListContains, not_mem_classListRemove]

theorem controlModal_exists (r : Refs) (p : Page) (action : JSString) :
    (elementAt r.modalBackdrop (controlModal r action p)).isSome
      = (elementAt r.modalBackdrop p).isSome := by
  unfold controlModal elementAt
  cases hm : r.modalBackdrop with
  | none => rfl
  | some m =>
    by_cases ha : action = js "open"
    · simp only [ha, if_true, Option.some_bind, List.getElem?_modify_eq]
      cases p.elements[m]? <;> rfl
    · simp only [ha, if_false, Option.some_bind, List.getElem?_modify_eq]
      cases p.elements[m]? <;> rfl

theorem controlModal_inv (r : Refs) (p : Page) (action : JSString)
    (h : (elementAt r.modalBackdrop p).isSome = true) :
    ModalInv r (controlModal r action p) := by
  refine ⟨by rw [controlModal_exists]; exact h, ?_⟩
  by_cases ha : action = js "open"
  · subst ha
    obtain ⟨h1, h2⟩ := controlModal_open_shown r p h
    simp [h1, h2]
  · obtain ⟨h1, h2⟩ := controlModal_close_hidden r p action ha h
    have hne : js "auto" ≠ js "hidden" := by decide
    simp [h1, h2, hne]

theorem step_modal_inv {α : Type} (H : Host α) (r : Refs) (ev : Event) (p : Page)
    (hev : ev.isModalEvent = true) (h : ModalInv r p) :
    ModalInv r (step H r ev p) := by
  cases ev <;> simp only [Event.isModalEvent, Bool.false_eq_true] at hev
  · exact controlModal_inv r p _ h.1
  · exact controlModal_inv r p _ h.1
  · exact controlModal_inv r p _ h.1
  · rename_i t
    cases t
    · simpa [step] using h
    · simpa [step] using controlModal_inv r p _ h.1
  · rename_i key
    unfold step onKeydown
    simp only
    split
    · exact controlModal_inv r p _ h.1
    · exact h
  · exact controlModal_inv r p _ h.1

theorem run_modal_inv {α : Type} (H : Host α) (r : Refs) (evs : List Event) (p : Page)
    (hev : ∀ ev ∈ evs, ev.isModalEvent = true) (h : ModalInv r p) :
    ModalInv r (run H r evs p) := by
  induction evs generalizing p with
  | nil => exact h
  | cons ev rest ih =>
    have h1 := step_modal_inv H r ev p (hev ev (by simp)) h
    have := ih (step H r ev p) (fun e he => hev e (by simp [he])) h1
    simpa [run] using this

/-! ## Theorems: the modal -/

/-- C4: from an initial page on which the script has loaded, with the modal not
shown and the body overflow not "hidden", after every finite sequence of modal
events (open button, close button, the close control, a click on the backdrop,
a key press, a call of `controlModal`) the body overflow is "hidden" if and
only if the modal has class "show". -/
theorem modal_overflow_invariant {α : Type} (H : Host α) (r : Refs) (p0 : Page)
    (evs : List Event)
    (hload : load p0.elements = some r)
    (hclosed : modalShown r p0 = false)
    (hscroll : p0.bodyOverflow ≠ js "hidden")
    (hev : ∀ ev ∈ evs, ev.isModalEvent = true) :
    ((run H r evs p0).bodyOverflow = js "hidden" ↔ modalShown r (run H r evs p0) = true) := by
  have h0 : ModalInv r p0 := by
    obtain ⟨_, _, m, e, hm, he⟩ := load_refs _ _ hload
    refine ⟨by simp [elementAt, hm, he], ?_⟩
    simp [hclosed, hscroll]
  exact (run_modal_inv H r evs p0 hev h0).2

/-- C4, on the demo page: after open, Escape, open, a click inside the dialog
and a call `controlModal("toggle")` the invariant holds. -/
theorem modal_overflow_invariant_witness :
    ((run demoHost demoRefs
        [.openModalClick, .keydown (js "Escape"), .openModalClick, .backdropClick false,
         .controlModalCall (js "toggle")] demoPage).bodyOverflow = js "hidden"
      ↔ modalShown demoRefs (run demoHost demoRefs
        [.openModalClick, .keydown (js "Escape"), .openModalClick, .backdropClick false,
         .controlModalCall (js "toggle")] demoPage) = true) :=
  modal_overflow_invariant demoHost demoRefs demoPage
    [.openModalClick, .keydown (js "Escape"), .openModalClick, .backdropClick false,
     .controlModalCall (js "toggle")]
    (by decide) (by decide) (by decide) (by decide)

/-- C5: `controlModal("open")` called twice yields the same page as called
once; when the modal element exists, that page has class "show" on the modal
and body overflow "hidden". -/
theorem controlModal_open_idempotent (r : Refs) (p : Page) :
    controlModal r (js "open") (controlModal r (js "open") p) = controlModal r (js "open") p
    ∧ ((elementAt r.modalBackdrop p).isSome = true →
        modalShown r (controlModal r (js "open") p) = true
        ∧ (controlModal r (js "open") p).bodyOverflow = js "hidden") := by
  refine ⟨?_, controlModal_open_shown r p⟩
  unfold controlModal
  cases hm : r.modalBackdrop with
  | none => rfl
  | some m =>
    simp only [if_true, List.modify_modify_eq]
    have : (classListAdd (js "show")) ∘ (classListAdd (js "show")) = classListAdd (js "show") := by
      funext e
      exact classListAdd_idem _ e
    rw [this]

/-- C5, on the demo page: after `controlModal("open")` the modal is shown and
scrolling is disabled. -/
theorem controlModal_open_idempotent_witness :
    modalShown demoRefs (controlModal demoRefs (js "open") demoPage) = true
    ∧ (controlModal demoRefs (js "open") demoPage).bodyOverflow = js "hidden" :=
  (controlModal_open_idempotent demoRefs demoPage).2 (by decide)

/-- C8: a keydown with key "Escape" while the modal has class "show" removes
that class from the modal, sets the body overflow to "auto" and changes nothing
else; a keydown with key "Escape" while the modal lacks the class, and a
keydown with any other key, leave the page as it is. -/
theorem keydown_escape_spec {α : Type} (H : Host α) (r : Refs) (p : Page) (key : JSString) :
    (key = js "Escape" → modalShown r p = true →
      modalShown r (step H r (.keydown key) p) = false
      ∧ (step H r (.keydown key) p).bodyOverflow = js "auto"
      ∧ (∃ m e, r.modalBackdrop = some m ∧ p.elements[m]? = some e
          ∧ (step H r (.keydown key) p).elements[m]? = some (classListRemove (js "show") e)
          ∧ ∀ j, j ≠ m → (step H r (.keydown key) p).elements[j]? = p.elements[j]?)
      ∧ { step H r (.keydown key) p with
            elements := p.elements, bodyOverflow := p.bodyOverflow } = p)
    ∧ (key = js "Escape" → modalShown r p = false → step H r (.keydown key) p = p)
    ∧ (key ≠ js "Escape" → step H r (.keydown key) p = p) := by
  refine ⟨?_, ?_, ?_⟩
  · intro hk hs
    have hex : (elementAt r.modalBackdrop p).isSome = true := by
      unfold modalShown at hs
      cases he : elementAt r.modalBackdrop p with
      | none => simp [he] at hs
      | some e => rfl
    have hstep : step H r (.keydown key) p = controlModal r (js "close") p := by
      simp [step, onKeydown, hk, hs]
    rw [hstep]
    obtain ⟨h1, h2⟩ := controlModal_close_hidden r p (js "close") (by decide) hex
    refine ⟨h1, h2, ?_, ?_⟩
    · unfold elementAt at hex
      cases hm : r.modalBackdrop with
      | none => simp [hm] at hex
      | some m =>
        simp only [hm, Option.some_bind] at hex
        obtain ⟨e, he⟩ := Option.isSome_iff_exists.mp hex
        have hc : js "close" ≠ js "open" := by decide
        refine ⟨m, e, rfl, he, ?_, ?_⟩
        · simp [controlModal, hm, hc, he]
        · intro j hj
          simp [controlModal, hm, hc, List.getElem?_modify_ne _ _ (Ne.symm hj)]
    · unfold controlModal
      cases hm : r.modalBackdrop with
      | none => rfl
      | some m =>
        have hc : js "close" ≠ js "open" := by decide
        simp [hc]
  · intro hk hs
    simp [step, onKeydown, hk, hs]
  · intro hk
    simp [step, onKeydown, hk]

/-- C8, on the demo page: Escape closes the opened modal; Escape on the closed
modal and the key "Enter" on the opened modal change nothing. -/
theorem keydown_escape_spec_witness :
    modalShown demoRefs
        (step demoHost demoRefs (.keydown (js "Escape"))
          (controlModal demoRefs (js "open") demoPage)) = false
    ∧ step demoHost demoRefs (.keydown (js "Escape")) demoPage = demoPage
    ∧ step demoHost demoRefs (.keydown (js "Enter"))
          (controlModal demoRefs (js "open") demoPage)
        = controlModal demoRefs (js "open") demoPage :=
  ⟨((keydown_escape_spec demoHost demoRefs (controlModal demoRefs (js "open") demoPage)
      (js "Escape")).1 (by decide) (by decide)).1,
   (keydown_escape_spec demoHost demoRefs demoPage (js "Escape")).2.1 (by decide) (by decide),
   (keydown_escape_spec demoHost demoRefs (controlModal demoRefs (js "open") demoPage)
      (js "Enter")).2.2 (by decide)⟩

/-! ## Lemmas on the animation -/

theorem id_of_getElementById (doc : List Element) (x : JSString) (i : Nat) (e : Element)
    (hid : getElementById doc x = some i) (he : doc[i]? = some e) : e.id = some x := by
  obtain ⟨a, ha, hx⟩ := getElementById_some doc x i hid
  rw [he] at ha
  cases ha
  exact hx

theorem textContent_of_text (doc : List Element) (i : Nat) (e : Element) (s : JSString)
    (he : doc[i]? = some e) (hc : e.childNodes = [.text s]) : textContent doc i = s := by
  have hlt := lt_of_getElem? doc i e he
  unfold textContent
  obtain ⟨n, hn⟩ : ∃ n, doc.length = n + 1 := ⟨doc.length - 1, by omega⟩
  rw [hn]
  unfold textContentAux
  rw [he]
  simp [hc]

theorem modify_set (doc : List Element) (i : Nat) (a : Element) (f : Element → Element) :
    (doc.set i a).modify f i = doc.set i (f a) := by
  apply List.ext_getElem?
  intro n
  by_cases hn : i = n
  · subst hn
    by_cases hlt : i < doc.length
    · simp [List.getElem?_set, hlt]
    · simp [List.getElem?_set, hlt]
  · simp [List.getElem?_modify_ne _ _ hn, List.getElem?_set, hn]

theorem toggleAnimationClass_absent (p : Page) (i : Nat) (e : Element)
    (hid : getElementById p.elements (js "target-box") = some i)
    (he : p.elements[i]? = some e) (habs : ¬ js "active" ∈ e.classList) :
    toggleAnimationClass (some i) (js "active") p
      = { p with
          elements := p.elements.set i (activated e p.nextListener i)
          nextListener := p.nextListener + 1 } := by
  have hv : validToken (js "active") = true := by decide
  have hid' : getElementById
      (p.elements.set i
        { e with
          classList := e.classList ++ [js "active"]
          transitionend := e.transitionend ++
            [{ ident := p.nextListener, element := i, className := js "active" }] })
      (js "target-box") = some i := by
    refine (getElementById_set p.elements i e _ _ he
      (id_of_getElementById _ _ _ _ hid he) ?_).trans hid
    rfl
  have hne : ¬ js "Animating..." = [] := by decide
  simp only [toggleAnimationClass, he, hv, classListToggle, habs, if_false, classListContains,
    Bool.true_eq_false, List.mem_append, List.mem_singleton, or_true, decide_True, if_true,
    updateDOMText, hid', modify_set, activated, setTextContent, hne]

theorem toggleAnimationClass_present (p : Page) (i : Nat) (e : Element)
    (he : p.elements[i]? = some e) (hpre : js "active" ∈ e.classList) :
    toggleAnimationClass (some i) (js "active") p
      = { p with elements := p.elements.set i (classListRemove (js "active") e) } := by
  have hv : validToken (js "active") = true := by decide
  have hn := not_mem_classListRemove (js "active") e
  simp only [toggleAnimationClass, he, hv, classListToggle, hpre, if_true, classListContains,
    Bool.true_eq_false, if_false, hn, decide_False, Bool.false_eq_true]

theorem getElem?_set_self_of (doc : List Element) (i : Nat) (e a : Element)
    (he : doc[i]? = some e) : (doc.set i a)[i]? = some a := by
  have hlt := lt_of_getElem? doc i e he
  simp [List.getElem?_set, hlt]

theorem Listener_run_eq (p : Page) (i : Nat) (e : Element) (h : Listener)
    (hid : getElementById p.elements (js "target-box") = some i)
    (he : p.elements[i]? = some e) (hh : h.element = i) :
    h.run p = { p with elements := p.elements.set i (completed e h) } := by
  unfold Listener.run
  simp only [hh]
  rw [modify_eq_set_of p.elements i e _ he]
  have hid' : getElementById
      (p.elements.set i
        { classListRemove h.className e with
          transitionend := e.transitionend.filter (fun l => l.ident ≠ h.ident) })
      (js "target-box") = some i := by
    refine (getElementById_set p.elements i e _ _ he
      (id_of_getElementById _ _ _ _ hid he) ?_).trans hid
    rfl
  have hne : ¬ js "Click Again!" = [] := by decide
  simp only [classListRemove] at hid'
  simp only [updateDOMText, classListRemove, hid', modify_set, completed, setTextContent, hne,
    if_false]

theorem run_append {α : Type} (H : Host α) (r : Refs) (xs ys : List Event) (p : Page) :
    run H r (xs ++ ys) p = run H r ys (run H r xs p) := by
  simp [run, List.foldl_append]

/-! ## Theorems: the animation -/

/-- C7: from a page on which the script has loaded and the target box lacks
class "active" and has no `transitionend` listener, a click of the trigger
leaves the class present, the text "Animating..." and one listener; the next
`transitionend` removes the class, sets the text to "Click Again!" and leaves
no listener; a second `transitionend` changes nothing. -/
theorem animation_lifecycle {α : Type} (H : Host α) (r : Refs) (p : Page) (i : Nat)
    (e : Element)
    (hload : load p.elements = some r)
    (hbox : r.targetBox = some i)
    (he : p.elements[i]? = some e)
    (hidle : ¬ js "active" ∈ e.classList)
    (hnone : e.transitionend = []) :
    (∃ e1, (run H r [.triggerClick] p).elements[i]? = some e1
      ∧ js "active" ∈ e1.classList
      ∧ e1.childNodes = [.text (js "Animating...")]
      ∧ e1.transitionend.length = 1)
    ∧ textContent (run H r [.triggerClick] p).elements i = js "Animating..."
    ∧ (∃ e2, (run H r [.triggerClick, .transitionend i] p).elements[i]? = some e2
      ∧ ¬ js "active" ∈ e2.classList
      ∧ e2.childNodes = [.text (js "Click Again!")]
      ∧ e2.transitionend = [])
    ∧ textContent (run H r [.triggerClick, .transitionend i] p).elements i = js "Click Again!"
    ∧ run H r [.triggerClick, .transitionend i, .transitionend i] p
        = run H r [.triggerClick, .transitionend i] p := by
  have hid : getElementById p.elements (js "target-box") = some i := by
    rw [← (load_refs _ _ hload).1, hbox]
  have h1 : run H r [.triggerClick] p
      = { p with
          elements := p.elements.set i (activated e p.nextListener i)
          nextListener := p.nextListener + 1 } := by
    simp only [run, List.foldl_cons, List.foldl_nil, step, hbox]
    exact toggleAnimationClass_absent p i e hid he hidle
  have hA : (run H r [.triggerClick] p).elements[i]? = some (activated e p.nextListener i) := by
    rw [h1]
    exact getElem?_set_self_of _ _ e _ he
  have hidA : getElementById (run H r [.triggerClick] p).elements (js "target-box") = some i := by
    rw [h1]
    refine (getElementById_set p.elements i e _ _ he
      (id_of_getElementById _ _ _ _ hid he) ?_).trans hid
    rfl
  have h2 : run H r [.triggerClick, .transitionend i] p
      = { p with
          elements := p.elements.set i
            (completed (activated e p.nextListener i)
              { ident := p.nextListener, element := i, className := js "active" })
          nextListener := p.nextListener + 1 } := by
    have hsplit : run H r [.triggerClick, .transitionend i] p
        = step H r (.transitionend i) (run H r [.triggerClick] p) := by
      simp [run]
    rw [hsplit]
    simp only [step, dispatchTransitionend, hA]
    have hl : (activated e p.nextListener i).transitionend
        = [{ ident := p.nextListener, element := i, className := js "active" }] := by
      simp [activated, hnone]
    rw [hl]
    have hreg : registered { ident := p.nextListener, element := i, className := js "active" } i
        (run H r [.triggerClick] p) = true := by
      simp [registered, hA, hl]
    simp only [List.foldl_cons, List.foldl_nil, hreg, if_true]
    rw [Listener_run_eq _ i _ _ hidA hA rfl, h1]
    simp
  have hC : (run H r [.triggerClick, .transitionend i] p).elements[i]?
      = some (completed (activated e p.nextListener i)
          { ident := p.nextListener, element := i, className := js "active" }) := by
    rw [h2]
    exact getElem?_set_self_of _ _ e _ he
  have hCl : (completed (activated e p.nextListener i)
      { ident := p.nextListener, element := i, className := js "active" }).transitionend = [] := by
    simp [completed, activated, hnone]
  refine ⟨⟨_, hA, ?_, ?_, ?_⟩, textContent_of_text _ i _ _ hA ?_,
    ⟨_, hC, ?_, ?_, hCl⟩, textContent_of_text _ i _ _ hC ?_, ?_⟩
  · simp [activated]
  · simp [activated]
  · simp [activated, hnone]
  · simp [activated]
  · simp [completed, List.mem_filter]
  · simp [completed]
  · simp [completed]
  · have hsplit : run H r [.triggerClick, .transitionend i, .transitionend i] p
        = step H r (.transitionend i) (run H r [.triggerClick, .transitionend i] p) := by
      simp [run]
    rw [hsplit]
    simp only [step, dispatchTransitionend, hC, hCl, List.foldl_nil]

/-- C7, on the demo page: the lifecycle of the target box. -/
theorem animation_lifecycle_witness :
    (∃ e1, (run demoHost demoRefs [.triggerClick] demoPage).elements[9]? = some e1
      ∧ js "active" ∈ e1.classList
      ∧ e1.childNodes = [.text (js "Animating...")]
      ∧ e1.transitionend.length = 1)
    ∧ textContent (run demoHost demoRefs [.triggerClick] demoPage).elements 9
        = js "Animating..."
    ∧ (∃ e2, (run demoHost demoRefs [.triggerClick, .transitionend 9] demoPage).elements[9]?
          = some e2
      ∧ ¬ js "active" ∈ e2.classList
      ∧ e2.childNodes = [.text (js "Click Again!")]
      ∧ e2.transitionend = [])
    ∧ textContent (run demoHost demoRefs [.triggerClick, .transitionend 9] demoPage).elements 9
        = js "Click Again!"
    ∧ run demoHost demoRefs [.triggerClick, .transitionend 9, .transitionend 9] demoPage
        = run demoHost demoRefs [.triggerClick, .transitionend 9] demoPage :=
  animation_lifecycle demoHost demoRefs demoPage 9
    (mkElement "target-box" ["box"] [.text (js "Click Me!")])
    (by decide) (by decide) (by decide) (by decide) (by decide)

theorem step_triggerClick_absent {α : Type} (H : Host α) (r : Refs) (p : Page) (i : Nat)
    (e : Element) (hbox : r.targetBox = some i)
    (hid : getElementById p.elements (js "target-box") = some i)
    (he : p.elements[i]? = some e) (habs : ¬ js "active" ∈ e.classList) :
    step H r .triggerClick p
      = { p with
          elements := p.elements.set i (activated e p.nextListener i)
          nextListener := p.nextListener + 1 } := by
  show toggleAnimationClass r.targetBox (js "active") p = _
  rw [hbox]
  exact toggleAnimationClass_absent p i e hid he habs

theorem step_triggerClick_present {α : Type} (H : Host α) (r : Refs) (p : Page) (i : Nat)
    (e : Element) (hbox : r.targetBox = some i)
    (he : p.elements[i]? = some e) (hpre : js "active" ∈ e.classList) :
    step H r .triggerClick p
      = { p with elements := p.elements.set i (classListRemove (js "active") e) } := by
  show toggleAnimationClass r.targetBox (js "active") p = _
  rw [hbox]
  exact toggleAnimationClass_present p i e he hpre

theorem pending_two_clicks {α : Type} (H : Host α) (r : Refs) (i n k : Nat) (q : Page)
    (hbox : r.targetBox = some i) (h : Pending i n k q) :
    Pending i n (k + 1) (run H r [.triggerClick, .triggerClick] q) := by
  obtain ⟨hid, hnext, e, he, hact, hl⟩ := h
  have h1 : step H r .triggerClick q
      = { q with elements := q.elements.set i (classListRemove (js "active") e) } :=
    step_triggerClick_present H r q i e hbox he hact
  have hid1 : getElementById (step H r .triggerClick q).elements (js "target-box") = some i := by
    rw [h1]
    refine (getElementById_set q.elements i e _ _ he
      (id_of_getElementById _ _ _ _ hid he) ?_).trans hid
    rfl
  have he1 : (step H r .triggerClick q).elements[i]? = some (classListRemove (js "active") e) := by
    rw [h1]
    exact getElem?_set_self_of _ _ e _ he
  have h2 : step H r .triggerClick (step H r .triggerClick q)
      = { step H r .triggerClick q with
          elements := (step H r .triggerClick q).elements.set i
            (activated (classListRemove (js "active") e) (step H r .triggerClick q).nextListener i)
          nextListener := (step H r .triggerClick q).nextListener + 1 } :=
    step_triggerClick_absent H r _ i _ hbox hid1 he1 (not_mem_classListRemove _ e)
  have hrun : run H r [.triggerClick, .triggerClick] q
      = step H r .triggerClick (step H r .triggerClick q) := by
    simp [run]
  have hn1 : (step H r .triggerClick q).nextListener = n + k + 1 := by
    rw [h1]
    exact hnext
  rw [hrun, h2]
  refine ⟨?_, ?_, _, getElem?_set_self_of _ _ _ _ he1, ?_, ?_⟩
  · refine (getElementById_set _ i _ _ _ he1
      (id_of_getElementById _ _ _ _ hid1 he1) ?_).trans hid1
    rfl
  · simp only [hn1]
    omega
  · simp [activated]
  · simp only [activated, classListRemove, List.map_append, hl, hn1, List.map_cons, List.map_nil]
    rw [List.range'_1_concat n (k + 1), Nat.add_assoc]

theorem pending_after_clicks {α : Type} (H : Host α) (r : Refs) (p : Page) (i : Nat)
    (e : Element)
    (hid : getElementById p.elements (js "target-box") = some i)
    (hbox : r.targetBox = some i)
    (he : p.elements[i]? = some e)
    (hidle : ¬ js "active" ∈ e.classList)
    (hnone : e.transitionend = []) (k : Nat) :
    Pending i p.nextListener k (run H r (List.replicate (2 * k + 1) .triggerClick) p) := by
  induction k with
  | zero =>
    have h1 : run H r (List.replicate (2 * 0 + 1) Event.triggerClick) p
        = { p with
            elements := p.elements.set i (activated e p.nextListener i)
            nextListener := p.nextListener + 1 } := by
      simp only [run, Nat.mul_zero, Nat.zero_add, List.replicate_one, List.foldl_cons,
        List.foldl_nil, step, hbox]
      exact toggleAnimationClass_absent p i e hid he hidle
    rw [h1]
    refine ⟨?_, rfl, _, getElem?_set_self_of _ _ e _ he, ?_, ?_⟩
    · refine (getElementById_set p.elements i e _ _ he
        (id_of_getElementById _ _ _ _ hid he) ?_).trans hid
      rfl
    · simp [activated]
    · simp [activated, hnone]
  | succ k ih =>
    have hsplit : List.replicate (2 * (k + 1) + 1) Event.triggerClick
        = List.replicate (2 * k + 1) Event.triggerClick ++ [.triggerClick, .triggerClick] := by
      have : 2 * (k + 1) + 1 = (2 * k + 1) + 2 := by omega
      rw [this, List.replicate_add]
      rfl
    rw [hsplit, run_append]
    exact pending_two_clicks H r i p.nextListener k _ hbox ih

/-- C10: from the idle state (the script loaded, the target box without class
"active" and without listener), three trigger clicks with no `transitionend`
in between leave two distinct `transitionend` listeners pending on the target
box; in general `2 * k + 1` clicks leave `k + 1` distinct listeners pending, so
no number bounds the pending listeners. -/
theorem pending_listeners_unbounded {α : Type} (H : Host α) (r : Refs) (p : Page) (i : Nat)
    (e : Element)
    (hload : load p.elements = some r)
    (hbox : r.targetBox = some i)
    (he : p.elements[i]? = some e)
    (hidle : ¬ js "active" ∈ e.classList)
    (hnone : e.transitionend = []) :
    (∃ e3, (run H r [.triggerClick, .triggerClick, .triggerClick] p).elements[i]? = some e3
      ∧ e3.transitionend.length = 2
      ∧ (e3.transitionend.map (fun l => l.ident)).Nodup)
    ∧ (∀ k, ∃ ek,
        (run H r (List.replicate (2 * k + 1) .triggerClick) p).elements[i]? = some ek
        ∧ ek.transitionend.length = k + 1
        ∧ (ek.transitionend.map (fun l => l.ident)).Nodup)
    ∧ (∀ bound, ∃ evs ek, (∀ ev ∈ evs, ev = Event.triggerClick)
        ∧ (run H r evs p).elements[i]? = some ek
        ∧ bound < ek.transitionend.length) := by
  have hid : getElementById p.elements (js "target-box") = some i := by
    rw [← (load_refs _ _ hload).1, hbox]
  have gen : ∀ k, ∃ ek,
      (run H r (List.replicate (2 * k + 1) .triggerClick) p).elements[i]? = some ek
      ∧ ek.transitionend.length = k + 1
      ∧ (ek.transitionend.map (fun l => l.ident)).Nodup := by
    intro k
    obtain ⟨_, _, ek, hek, _, hl⟩ := pending_after_clicks H r p i e hid hbox he hidle hnone k
    refine ⟨ek, hek, ?_, ?_⟩
    · have := congrArg List.length hl
      simpa using this
    · rw [hl]
      exact List.nodup_range' _ _
  refine ⟨?_, gen, ?_⟩
  · simpa using gen 1
  · intro bound
    obtain ⟨ek, hek, hlen, _⟩ := gen bound
    refine ⟨List.replicate (2 * bound + 1) .triggerClick, ek, ?_, hek, by omega⟩
    intro ev hev
    exact (List.mem_replicate.mp hev).2

/-- C10, on the demo page: three clicks leave two listeners on the target box. -/
theorem pending_listeners_unbounded_witness :
    ∃ e3, (run demoHost demoRefs [.triggerClick, .triggerClick, .triggerClick]
        demoPage).elements[9]? = some e3
      ∧ e3.transitionend.length = 2
      ∧ (e3.transitionend.map (fun l => l.ident)).Nodup :=
  (pending_listeners_unbounded demoHost demoRefs demoPage 9
    (mkElement "target-box" ["box"] [.text (js "Click Me!")])
    (by decide) (by decide) (by decide) (by decide) (by decide)).1

/-! ## Lemmas on the counter -/

theorem updateDOMText_globalCounter (x c : JSString) (p : Page) :
    (updateDOMText x c p).2.globalCounter = p.globalCounter := by
  unfold updateDOMText
  cases getElementById p.elements x <;> rfl

theorem toggleAnimationClass_globalCounter (ref : Option Nat) (c : JSString) (p : Page) :
    (toggleAnimationClass ref c p).globalCounter = p.globalCounter := by
  unfold toggleAnimationClass
  cases ref with
  | none => rfl
  | some i =>
    simp only
    cases h : p.elements[i]? with
    | none => rfl
    | some e =>
      simp only
      by_cases hv : validToken c = false
      · simp [hv]
      · by_cases hc : classListContains c (classListToggle c e) = true
        · simp [hv, hc, updateDOMText_globalCounter]
        · simp [hv, hc]

theorem Listener_run_globalCounter (h : Listener) (p : Page) :
    (h.run p).globalCounter = p.globalCounter := by
  unfold Listener.run
  simp only
  rw [updateDOMText_globalCounter]

theorem dispatchTransitionend_globalCounter (target : Nat) (p : Page) :
    (dispatchTransitionend target p).globalCounter = p.globalCounter := by
  unfold dispatchTransitionend
  cases p.elements[target]? with
  | none => rfl
  | some e =>
    simp only
    generalize e.transitionend = hs
    induction hs generalizing p with
    | nil => rfl
    | cons h rest ih =>
      simp only [List.foldl_cons]
      split
      · rw [ih, Listener_run_globalCounter]
      · exact ih p

theorem controlModal_globalCounter (r : Refs) (action : JSString) (p : Page) :
    (controlModal r action p).globalCounter = p.globalCounter := by
  unfold controlModal
  cases r.modalBackdrop with
  | none => rfl
  | some m =>
    simp only
    split <;> rfl

theorem onElement_globalCounter (ref : Option Nat) (f : Element → Element) (p : Page) :
    (onElement ref f p).globalCounter = p.globalCounter := by
  unfold onElement
  cases ref <;> rfl

theorem step_globalCounter_other {α : Type} (H : Host α) (r : Refs) (ev : Event) (p : Page)
    (h1 : ev ≠ .calculateClick) (h2 : ev ≠ .stringClick) (h3 : ev ≠ .mathClick) :
    (step H r ev p).globalCounter = p.globalCounter := by
  cases ev with
  | calculateClick => exact absurd rfl h1
  | stringClick => exact absurd rfl h2
  | mathClick => exact absurd rfl h3
  | triggerClick => exact toggleAnimationClass_globalCounter _ _ _
  | flipCardClick => exact onElement_globalCounter _ _ _
  | startLoaderClick => exact onElement_globalCounter _ _ _
  | stopLoaderClick => exact onElement_globalCounter _ _ _
  | openModalClick => exact controlModal_globalCounter _ _ _
  | closeModalClick => exact controlModal_globalCounter _ _ _
  | closeXClick => exact controlModal_globalCounter _ _ _
  | backdropClick t =>
    cases t
    · rfl
    · exact controlModal_globalCounter _ _ _
  | keydown key =>
    show (onKeydown r key p).globalCounter = _
    unfold onKeydown
    split
    · exact controlModal_globalCounter _ _ _
    · rfl
  | transitionend target => exact dispatchTransitionend_globalCounter _ _
  | domContentLoaded => rfl
  | fadeTimeout =>
    show (if p.fadeTimers = 0 then p else onFadeTimeout _).globalCounter = _
    split
    · rfl
    · unfold onFadeTimeout
      simp only
      split <;> rfl
  | controlModalCall action => exact controlModal_globalCounter _ _ _

theorem step_globalCounter_part2 {α : Type} (H : Host α) (r : Refs) (ev : Event) (p : Page)
    (h : ev = .calculateClick ∨ ev = .stringClick ∨ ev = .mathClick) :
    (step H r ev p).globalCounter = p.globalCounter + 1 := by
  rcases h with h | h | h <;> subst h
  · show (onCalculateClick H p).globalCounter = _
    simp only [onCalculateClick, calculateArea, updateGlobalCounter, updateDOMText_globalCounter]
  · show (onStringClick H p).globalCounter = _
    simp only [onStringClick, updateGlobalCounter, updateDOMText_globalCounter]
  · show (onMathClick H p).globalCounter = _
    simp only [onMathClick, updateGlobalCounter, updateDOMText_globalCounter]

theorem step_globalCounter_le {α : Type} (H : Host α) (r : Refs) (ev : Event) (p : Page) :
    p.globalCounter ≤ (step H r ev p).globalCounter := by
  by_cases h : ev = .calculateClick ∨ ev = .stringClick ∨ ev = .mathClick
  · rw [step_globalCounter_part2 H r ev p h]
    exact Nat.le_succ _
  · have h' := not_or.mp h
    have h'' := not_or.mp h'.2
    rw [step_globalCounter_other H r ev p h'.1 h''.1 h''.2]

/-! ## Theorems: the counter -/

/-- C9, as the claim states it, fails: on the demo page a click of the
animation trigger, of the flip-card button, of either loader button, of the
modal open button or of the modal close button leaves `globalCounter` at 0. -/
theorem globalCounter_not_every_button :
    (step demoHost demoRefs .triggerClick demoPage).globalCounter ≠ demoPage.globalCounter + 1
    ∧ (step demoHost demoRefs .flipCardClick demoPage).globalCounter
        ≠ demoPage.globalCounter + 1
    ∧ (step demoHost demoRefs .startLoaderClick demoPage).globalCounter
        ≠ demoPage.globalCounter + 1
    ∧ (step demoHost demoRefs .stopLoaderClick demoPage).globalCounter
        ≠ demoPage.globalCounter + 1
    ∧ (step demoHost demoRefs .openModalClick demoPage).globalCounter
        ≠ demoPage.globalCounter + 1
    ∧ (step demoHost demoRefs .closeModalClick demoPage).globalCounter
        ≠ demoPage.globalCounter + 1 := by
  decide

/-- C9, amended: a click of the calculate, string or math button increases
`globalCounter` by exactly 1; every other event, the clicks of the other wired
buttons among them, leaves it unchanged; no sequence of events decreases it. -/
theorem globalCounter_spec {α : Type} (H : Host α) (r : Refs) (ev : Event) (p : Page) :
    ((ev = .calculateClick ∨ ev = .stringClick ∨ ev = .mathClick) →
      (step H r ev p).globalCounter = p.globalCounter + 1)
    ∧ (ev ≠ .calculateClick → ev ≠ .stringClick → ev ≠ .mathClick →
      (step H r ev p).globalCounter = p.globalCounter)
    ∧ (∀ evs : List Event, p.globalCounter ≤ (run H r evs p).globalCounter) := by
  refine ⟨step_globalCounter_part2 H r ev p, step_globalCounter_other H r ev p, ?_⟩
  intro evs
  induction evs generalizing p with
  | nil => exact Nat.le_refl _
  | cons e rest ih =>
    have h1 := step_globalCounter_le H r e p
    have h2 := ih (step H r e p)
    have h3 : run H r (e :: rest) p = run H r rest (step H r e p) := by simp [run]
    rw [h3]
    exact Nat.le_trans h1 h2

/-- C9, amended, on the demo page: a click of the math button counts, a click
of the flip-card button does not. -/
theorem globalCounter_spec_witness :
    (step demoHost demoRefs .mathClick demoPage).globalCounter = demoPage.globalCounter + 1
    ∧ (step demoHost demoRefs .flipCardClick demoPage).globalCounter
        = demoPage.globalCounter :=
  ⟨(globalCounter_spec demoHost demoRefs .mathClick demoPage).1 (Or.inr (Or.inr rfl)),
   (globalCounter_spec demoHost demoRefs .flipCardClick demoPage).2.1
      (by decide) (by decide) (by decide)⟩

end Script
